import Mathlib

/-!
Verification of the Ride-the-Bus game engines (single-bet casino variant in
`casino_game.py`, multiplayer party variant in `game/engine.py`, deck and RNG
in `game/deck.py`) against their natural-language specification.  Python
source is embedded shallowly: mutable state becomes explicit state passing,
exceptions become `Except`/`Option`, floats become `ℚ`.
-/

/-! ## Shared card model (`game/types.py` and `casino_game.py`) -/

/-- Suit enum, iteration order HEARTS, DIAMONDS, CLUBS, SPADES. -/
inductive Suit
  | hearts | diamonds | clubs | spades
deriving DecidableEq, Repr

/-- All suits in Python `for suit in Suit` order. -/
def Suit.all : List Suit := [.hearts, .diamonds, .clubs, .spades]

/-- Lowercase suit name, as Python `suit.name.lower()`. -/
def Suit.lowerName : Suit → String
  | .hearts => "hearts"
  | .diamonds => "diamonds"
  | .clubs => "clubs"
  | .spades => "spades"

/-- Rank enum; both variants share the same thirteen members. -/
inductive Rank
  | two | three | four | five | six | seven | eight | nine | ten
  | jack | queen | king | ace
deriving DecidableEq, Repr

/-- All ranks in Python `for rank in Rank` order (= `RANK_ORDER`). -/
def Rank.all : List Rank :=
  [.two, .three, .four, .five, .six, .seven, .eight, .nine, .ten,
   .jack, .queen, .king, .ace]

/-- Numeric enum value of `casino_game.Rank` (2..14, Ace high). -/
def Rank.value : Rank → Nat
  | .two => 2 | .three => 3 | .four => 4 | .five => 5 | .six => 6
  | .seven => 7 | .eight => 8 | .nine => 9 | .ten => 10
  | .jack => 11 | .queen => 12 | .king => 13 | .ace => 14

/-- `RANK_ORDER.index(rank)` of `game/types.py` (0..12, Ace high). -/
def Rank.rankValue : Rank → Nat
  | .two => 0 | .three => 1 | .four => 2 | .five => 3 | .six => 4
  | .seven => 5 | .eight => 6 | .nine => 7 | .ten => 8
  | .jack => 9 | .queen => 10 | .king => 11 | .ace => 12

inductive Color
  | red | black
deriving DecidableEq, Repr

/-- ASCII lower-casing of one character (Python `str.lower` restricted to
the ASCII guess strings the game compares). -/
def pyCharLower (c : Char) : Char :=
  if 65 ≤ c.toNat ∧ c.toNat ≤ 90 then Char.ofNat (c.toNat + 32) else c

/-- Python `str.lower()` on the ASCII strings used as guesses. -/
def pyLower (s : String) : String := String.mk (s.data.map pyCharLower)

/-- `Card.color`: red iff suit is hearts or diamonds. -/
def Suit.color : Suit → Color
  | .hearts => .red
  | .diamonds => .red
  | .clubs => .black
  | .spades => .black

/-! ## Seeded RNG model

Modelled from the spec: the pseudo-random generator is Python's standard
library `random` module (a Mersenne Twister), which is not part of this
repository.  The spec requires only a deterministic seeded generator:
"`shuffle(deck, rng)` performs an in-place uniform permutation using the
seeded generator … same seed ⇒ identical resulting order".  The generator
state is modelled as a `Nat` advanced by a linear congruential step, and
`random.seed(s)` / `random.Random(s)` as installing state `s`.  The shuffle
itself follows CPython's `random.shuffle` (a descending Fisher–Yates using
`_randbelow(i + 1)`). -/

/-- One step of the modelled generator. -/
def rngStep (s : Nat) : Nat := (s * 1103515245 + 12345) % 4294967296

/-- Modelled `Random._randbelow(k)`: returns a value `< k` (for `k > 0`)
and the advanced generator state. -/
def randbelow (s k : Nat) : Nat × Nat :=
  let s' := rngStep s
  (s' % k, s')

/-- Swap positions `i` and `j` of a list (the `x[i], x[j] = x[j], x[i]` of
`random.shuffle`). -/
def listSwap {α : Type} [Inhabited α] (l : List α) (i j : Nat) : List α :=
  (l.set i (l.getD j default)).set j (l.getD i default)

/-- Fisher–Yates loop of `random.shuffle`: for `i` descending from
`len - 1` to `1`, draw `j = randbelow(i + 1)` and swap `x[i], x[j]`.
The first argument is the current loop index `i`. -/
def shuffleFrom {α : Type} [Inhabited α] : Nat → List α → Nat → List α × Nat
  | 0, l, st => (l, st)
  | i + 1, l, st =>
      let p := randbelow st (i + 2)
      shuffleFrom i (listSwap l (i + 1) p.1) p.2

/-- Modelled `rng.shuffle(lst)` (used by both `SeededRNG.shuffle` and the
casino engine's `self.rng.shuffle`): shuffles the whole list, returning the
new list and generator state. -/
def pyShuffle {α : Type} [Inhabited α] (l : List α) (st : Nat) : List α × Nat :=
  shuffleFrom (l.length - 1) l st

namespace Casino

/-! ## Casino variant (`casino_game.py`) -/

/-- `casino_game.Card`: rank and suit. -/
structure Card where
  rank : Rank
  suit : Suit
deriving DecidableEq, Repr

instance : Inhabited Card := ⟨⟨.two, .hearts⟩⟩

/-- `Card.value` property: the numeric rank value (2..14). -/
def Card.value (c : Card) : Nat := c.rank.value

/-- `Card.color` property. -/
def Card.color (c : Card) : Color := c.suit.color

/-- `casino_game.Round`. -/
inductive Round
  | round1 | round2 | round3 | round4
deriving DecidableEq, Repr

/-- `casino_game.GameStatus`. -/
inductive GameStatus
  | active | won | lost | cashedOut
deriving DecidableEq, Repr

/-- One entry of `game_history` (timestamp omitted: wall-clock time is not
modelled). The `round` field records `game.current_round.value` at append
time, i.e. after any round advancement, as in the source. -/
structure HistoryEntry where
  round : Nat
  guess : String
  card : Card
  correct : Bool
  winnings : ℚ
deriving DecidableEq, Repr

/-- `casino_game.GameState` (the `game_id` uuid is omitted: `uuid.uuid4()`
randomness is outside the seeded generator and carries no game content). -/
structure GameState where
  current_round : Round
  cards_drawn : List Card
  bet_amount : ℚ
  current_winnings : ℚ
  status : GameStatus
  deck : List Card
  game_history : List HistoryEntry
deriving DecidableEq, Repr

/-- `GameState.get_round_multiplier`. -/
def getRoundMultiplier : Round → ℚ
  | .round1 => 2
  | .round2 => 2
  | .round3 => 3
  | .round4 => 4

/-- `Round(current_round.value + 1)`; only reached for rounds 1–3 in the
source (round 4 instead sets status WON). -/
def Round.next : Round → Round
  | .round1 => .round2
  | .round2 => .round3
  | .round3 => .round4
  | .round4 => .round4

/-- `CasinoRideTheBus.__init__`: `if seed: random.seed(seed)` — the global
generator is reseeded only when `seed` is truthy (not `None` and nonzero);
otherwise the ambient global state is used unchanged. -/
def initRngState (seed : Option Nat) (globalSt : Nat) : Nat :=
  match seed with
  | some s => if s = 0 then globalSt else s
  | none => globalSt

/-- The unshuffled deck of `create_deck`: suits outer, ranks inner. -/
def orderedDeck : List Card :=
  Suit.all.flatMap (fun s => Rank.all.map (fun r => Card.mk r s))

/-- `CasinoRideTheBus.create_deck`: build the 52-card deck and shuffle it
with the engine's generator. -/
def createDeck (st : Nat) : List Card × Nat := pyShuffle orderedDeck st

/-- `CasinoRideTheBus.start_new_game`. -/
def startNewGame (bet : ℚ) (st : Nat) : GameState × Nat :=
  let d := createDeck st
  ({ current_round := .round1
     cards_drawn := []
     bet_amount := bet
     current_winnings := 0
     status := .active
     deck := d.1
     game_history := [] }, d.2)

/-- `CasinoRideTheBus._check_round1`. -/
def checkRound1 (guess : String) (card : Card) : Bool :=
  (pyLower guess = "red" && card.color == Color.red) ||
  (pyLower guess = "black" && card.color == Color.black)

/-- `CasinoRideTheBus._check_round2`: higher wins on `>=`, lower on `<=`. -/
def checkRound2 (guess : String) (card firstCard : Card) : Bool :=
  if pyLower guess = "higher" then card.value ≥ firstCard.value
  else if pyLower guess = "lower" then card.value ≤ firstCard.value
  else false

/-- `CasinoRideTheBus._check_round3`. -/
def checkRound3 (guess : String) (card firstCard secondCard : Card) : Bool :=
  let low := min firstCard.value secondCard.value
  let high := max firstCard.value secondCard.value
  if pyLower guess = "inside" then low < card.value && card.value < high
  else if pyLower guess = "outside" then card.value ≤ low || high ≤ card.value
  else false

/-- `CasinoRideTheBus._check_round4`: correct iff the guessed suit equals
the drawn card's suit and that suit is not among the first three cards of
`previous_cards`. -/
def checkRound4 (guess : String) (card : Card) (previousCards : List Card) : Bool :=
  let usedSuits := (previousCards.take 3).map (fun c => c.suit.lowerName)
  let guessedSuit := pyLower guess
  let cardSuit := card.suit.lowerName
  guessedSuit = cardSuit && ¬ (cardSuit ∈ usedSuits)

/-- `CasinoRideTheBus._check_guess`, called after the draw appended the
card, so `cards_drawn` already contains it.  The empty-list branches are
unreachable in the source (a draw always precedes the check); Python would
raise `IndexError` there. -/
def checkGuess (g : GameState) (guess : String) (card : Card) : Bool :=
  match g.current_round with
  | .round1 => checkRound1 guess card
  | .round2 =>
      match g.cards_drawn with
      | c0 :: _ => checkRound2 guess card c0
      | [] => false
  | .round3 =>
      match g.cards_drawn with
      | c0 :: c1 :: _ => checkRound3 guess card c0 c1
      | _ => false
  | .round4 => checkRound4 guess card g.cards_drawn

/-- `CasinoRideTheBus.make_guess`: draw, evaluate, update winnings and
round/status, record history, return `(is_correct, card, winnings)` with
the updated state. -/
def makeGuess (g : GameState) (guess : String) :
    Except String (Bool × Card × ℚ × GameState) :=
  if g.status ≠ GameStatus.active then .error "Game is not active"
  else
    match g.deck with
    | [] => .error "Deck is empty"
    | card :: rest =>
      let g1 : GameState := { g with deck := rest, cards_drawn := g.cards_drawn ++ [card] }
      let isCorrect := checkGuess g1 guess card
      let g2 : GameState :=
        if isCorrect then
          let w :=
            if g1.current_round = Round.round1 then
              g1.bet_amount * getRoundMultiplier g1.current_round
            else
              g1.current_winnings * getRoundMultiplier g1.current_round
          if g1.current_round = Round.round4 then
            { g1 with current_winnings := w, status := .won }
          else
            { g1 with current_winnings := w, current_round := g1.current_round.next }
        else
          { g1 with status := .lost, current_winnings := 0 }
      let roundNum : Nat :=
        match g2.current_round with
        | .round1 => 1 | .round2 => 2 | .round3 => 3 | .round4 => 4
      let g3 : GameState :=
        { g2 with game_history := g2.game_history ++
            [{ round := roundNum, guess := guess, card := card,
               correct := isCorrect, winnings := g2.current_winnings }] }
      .ok (isCorrect, card, g3.current_winnings, g3)

/-- `CasinoRideTheBus.cash_out`: allowed only while active and past round 1;
an error leaves the state unchanged (the exception propagates before any
mutation). -/
def cashOut (g : GameState) : Except String (ℚ × GameState) :=
  if g.status ≠ GameStatus.active ∨ g.current_round = Round.round1 then
    .error "Cannot cash out at this time"
  else
    .ok (g.current_winnings, { g with status := .cashedOut })

/-- `casino_game.StrategyRecommendation` (the human-readable `reasoning`
string is presentational and omitted). -/
structure StrategyRecommendation where
  action : String
  confidence : ℚ
  expected_value : ℚ
  probability : ℚ
deriving DecidableEq, Repr

/-- `CasinoRideTheBus._strategy_round2`. -/
def strategyRound2 (firstCard : Card) : StrategyRecommendation :=
  let value := firstCard.value
  if 2 ≤ value ∧ value ≤ 5 then
    let prob : ℚ := ((14 : ℚ) - (value : ℚ)) / 12
    { action := "pick_higher", confidence := 8/10,
      expected_value := prob * 2, probability := prob }
  else if 6 ≤ value ∧ value ≤ 10 then
    { action := "cash_out", confidence := 9/10,
      expected_value := 1, probability := 1 }
  else
    let prob : ℚ := ((value : ℚ) - 2) / 12
    { action := "pick_lower", confidence := 8/10,
      expected_value := prob * 2, probability := prob }

/-- A run of the casino engine: construct the engine (`__init__` seeding
semantics), start a game, then submit the guesses in order.  A raised
exception aborts the run, leaving the state reached so far. -/
def runGuesses (g : GameState) : List String → GameState
  | [] => g
  | q :: qs =>
      match makeGuess g q with
      | .ok r => runGuesses r.2.2.2 qs
      | .error _ => g

/-- Full run from engine construction: `CasinoRideTheBus(seed)` then
`start_new_game(bet)` then the guess sequence. `globalSt` is the ambient
state of Python's process-global `random` generator before the run. -/
def casinoRun (seed : Option Nat) (globalSt : Nat) (bet : ℚ)
    (guesses : List String) : GameState :=
  runGuesses (startNewGame bet (initRngState seed globalSt)).1 guesses

end Casino

namespace Party

/-! ## Party variant (`game/types.py`, `game/deck.py`, `game/engine.py`) -/

/-- `types.Card`: rank, suit, and the uuid `id` field (modelled as a `Nat`;
distinct cards receive distinct ids, and dataclass equality compares all
three fields). -/
structure Card where
  rank : Rank
  suit : Suit
  id : Nat
deriving DecidableEq, Repr

instance : Inhabited Card := ⟨⟨.two, .hearts, 0⟩⟩

/-- `Card.rank_value` property: index in `RANK_ORDER`. -/
def Card.rankValue (c : Card) : Nat := c.rank.rankValue

/-- `types.Player` (uuid id modelled as `Nat`). -/
structure Player where
  id : Nat
  name : String
  hand : List Card
  drinks_assigned : Nat
  drinks_received : Nat
  is_bus_rider : Bool
deriving DecidableEq, Repr

/-- `types.Phase`. -/
inductive Phase
  | phaseOneDeal | phaseTwoPyramid | phaseThreeBus | finished
deriving DecidableEq, Repr

/-- `types.RoundId`. -/
inductive RoundId
  | r1 | r2 | r3 | r4
deriving DecidableEq, Repr

/-- `types.Guess`. -/
inductive Guess
  | red | black | higher | lower | inside | outside
deriving DecidableEq, Repr

/-- `types.PyramidCell`. -/
structure PyramidCell where
  face_up : Bool
  card : Option Card
deriving DecidableEq, Repr

/-- `types.Pyramid`: rows of cells plus the cursor `{"row": r, "col": c}`. -/
structure Pyramid where
  rows : List (List PyramidCell)
  cursor : Nat × Nat
deriving DecidableEq, Repr

/-- The default pyramid: face-down empty rows of widths 5,4,3,2,1,
cursor at (0,0). -/
def Pyramid.default : Pyramid :=
  { rows := [5, 4, 3, 2, 1].map (fun n => List.replicate n ⟨false, none⟩)
    cursor := (0, 0) }

/-- One entry of the game log (`types.LogEntry`), one constructor per
`_log_event` call site embedded here; timestamps are omitted. -/
inductive LogEv
  | gameCreated (playerCount : Nat) (seed : Nat)
  | cardDealtBoundary (round : String) (card : Card)
  | guessMade (round : String) (guess : Guess) (card : Card) (correct : Bool)
  | penaltyApplied (amount : Nat)
  | rewardAssigned (amount : Nat)
  | matchCommitted (card : Card) (row : Nat) (drinks : Nat)
  | busRiderSelected (riderName : String) (cardsRemaining : Nat)
  | busStarted (cards : Nat)
  | busFlip (position : Nat) (card : Card) (drinks : Nat)
  | busCompleted
deriving DecidableEq, Repr

/-- The fields of `types.Config` used by the embedded operations
(`penalty`, `reward`, `pyramid.row_values`), with the source defaults. -/
structure Config where
  sips_wrong_guess_r1 : Nat := 1
  sips_wrong_guess_r2 : Nat := 1
  sips_wrong_guess_r3 : Nat := 1
  sips_wrong_guess_r4 : Nat := 1
  reward_distribute_drinks : Nat := 5
  row_values : List Nat := [1, 2, 3, 4, 5]
deriving DecidableEq, Repr

/-- `types.Game` (uuid `id` omitted; the engine's `SeededRNG` state is
passed alongside the game explicitly rather than stored in it, mirroring
`GameEngine.self.rng`). -/
structure Game where
  seed : Nat
  phase : Phase
  players : List Player
  dealer_index : Nat
  deck : List Card
  discard : List Card
  pyramid : Pyramid
  log : List LogEv
  config : Config
  current_round : Option RoundId
  current_player_index : Nat
  bus_cards : List Card
  bus_cursor : Nat
deriving DecidableEq, Repr

/-- `deck.create_standard_deck`: one card per (suit, rank) pair, suits
outer, ranks inner; ids 0..51 model the per-card uuids. -/
def createStandardDeck : List Card :=
  (Suit.all.flatMap (fun s => Rank.all.map (fun r => (r, s)))).enum.map
    (fun p => Card.mk p.2.1 p.2.2 p.1)

/-- `deck.deal_card`: pop the front card; `none` models the `IndexError`
on an empty deck. -/
def dealCard (deck : List Card) : Option (Card × List Card) :=
  match deck with
  | [] => none
  | c :: rest => some (c, rest)

/-- `deck.return_card_and_reshuffle`: re-insert the card at the front and
reshuffle the whole deck with the engine's generator. -/
def returnCardAndReshuffle (deck : List Card) (card : Card) (st : Nat) :
    List Card × Nat :=
  pyShuffle (card :: deck) st

/-- `GameEngine.create_game`: requires 2–10 players, builds and shuffles
the deck, and initialises the game in phase one, round R1.  Player ids are
modelled by list position. -/
def createGame (playerNames : List String) (seed : Nat) (st : Nat) :
    Except String (Game × Nat) :=
  if playerNames.length < 2 ∨ playerNames.length > 10 then
    .error "Game requires 2-10 players"
  else
    let players := playerNames.enum.map
      (fun p => Player.mk p.1 p.2 [] 0 0 false)
    let d := pyShuffle createStandardDeck st
    .ok ({ seed := seed
           phase := .phaseOneDeal
           players := players
           dealer_index := 0
           deck := d.1
           discard := []
           pyramid := Pyramid.default
           log := [.gameCreated players.length seed]
           config := {}
           current_round := some .r1
           current_player_index := 0
           bus_cards := []
           bus_cursor := 0 }, d.2)

/-- The dealing loop of `GameEngine._execute_r2` (lines 113–128): deal a
second card; while its rank equals the first card's rank, return it to the
deck, reshuffle, log a boundary event, and redraw.  `fuel` bounds the
number of iterations; `none` covers fuel exhaustion and the
`RuntimeError` on an empty deck.  Returns the accepted card, the remaining
deck, the generator state, and the log. -/
def r2DrawLoop (firstVal : Nat) :
    Nat → List Card → Nat → List LogEv → Option (Card × List Card × Nat × List LogEv)
  | 0, _, _, _ => none
  | _ + 1, [], _, _ => none
  | fuel + 1, c :: rest, st, log =>
      if c.rankValue = firstVal then
        let d := returnCardAndReshuffle rest c st
        r2DrawLoop firstVal fuel d.1 d.2 (log ++ [.cardDealtBoundary "R2" c])
      else
        some (c, rest, st, log)

/-- `GameEngine._execute_r2`: draw the second card under the boundary
reshuffle rule, append it to the player's hand, score the higher/lower
guess, apply the penalty, and log.  `none` models every raised exception
(missing player or R1 card, deck exhaustion, non-higher/lower guess) as
well as fuel exhaustion of the reshuffle loop. -/
def executeR2 (fuel : Nat) (g : Game) (st : Nat) (i : Nat) (guess : Guess) :
    Option (Card × Bool × Nat × Game × Nat) :=
  match g.players.get? i with
  | none => none
  | some player =>
    match player.hand.head? with
    | none => none
    | some firstCard =>
      match r2DrawLoop firstCard.rankValue fuel g.deck st g.log with
      | none => none
      | some (second, deck', st', log') =>
        let correct? : Option Bool :=
          match guess with
          | .higher => some (firstCard.rankValue < second.rankValue)
          | .lower => some (second.rankValue < firstCard.rankValue)
          | _ => none
        match correct? with
        | none => none
        | some correct =>
          let penalty := if correct then 0 else g.config.sips_wrong_guess_r2
          let player' : Player :=
            { player with hand := player.hand ++ [second],
                          drinks_received := player.drinks_received + penalty }
          let log'' := log' ++ [.guessMade "R2" guess second correct] ++
            (if penalty > 0 then [.penaltyApplied penalty] else [])
          some (second, correct, penalty,
            { g with players := g.players.set i player',
                     deck := deck', log := log'' }, st')

/-- `GameEngine._get_current_pyramid_card`: the card at the cursor if that
slot is in range and face-up. -/
def getCurrentPyramidCard (g : Game) : Option Card :=
  match g.pyramid.rows.get? g.pyramid.cursor.1 with
  | none => none
  | some row =>
    match row.get? g.pyramid.cursor.2 with
    | none => none
    | some cell => if cell.face_up then cell.card else none

/-- Python `list.remove`: drop the first element equal to `x`. -/
def removeFirst (x : Card) : List Card → List Card
  | [] => []
  | c :: rest => if c = x then rest else c :: removeFirst x rest

/-- `GameEngine.commit_match`: requires pyramid phase, a known player, a
face-up current pyramid card, some hand card matching its rank, and the
committed card present in the hand; then moves the committed card to the
discard pile and returns the configured drink value for the cursor row. -/
def commitMatch (g : Game) (playerId : Nat) (card : Card) :
    Except String (Nat × Game) :=
  if g.phase ≠ Phase.phaseTwoPyramid then .error "Not in pyramid phase"
  else
    match g.players.findIdx? (fun p => p.id = playerId) with
    | none => .error "Player not found"
    | some i =>
      match g.players.get? i with
      | none => .error "Player not found"
      | some player =>
        match getCurrentPyramidCard g with
        | none => .error "No pyramid card to match"
        | some currentCard =>
          let matchingCards := player.hand.filter (fun c => c.rank = currentCard.rank)
          if matchingCards.isEmpty ∨ card ∉ player.hand then
            .error "Player doesn't have matching card"
          else
            let player' := { player with hand := removeFirst card player.hand }
            let rowValue := g.config.row_values.getD g.pyramid.cursor.1 0
            .ok (rowValue,
              { g with players := g.players.set i player',
                       discard := g.discard ++ [card],
                       log := g.log ++
                         [.matchCommitted card g.pyramid.cursor.1 rowValue] })

/-- `get_sorted_ranks` of `GameEngine._resolve_tie_by_highest_card`:
the hand's rank values sorted descending (`sorted(..., reverse=True)`,
modelled by insertion sort). -/
def insertDesc (x : Nat) : List Nat → List Nat
  | [] => [x]
  | y :: ys => if y ≤ x then x :: y :: ys else y :: insertDesc x ys

/-- Sort a list of naturals in descending order. -/
def sortDesc (l : List Nat) : List Nat := l.foldr insertDesc []

/-- The descending rank values of a player's hand. -/
def getSortedRanks (p : Player) : List Nat :=
  sortDesc (p.hand.map Card.rankValue)

/-- The inner comparison loop of `_resolve_tie_by_highest_card`: does the
challenger's sorted rank list beat the current best?  True at the first
strictly-greater comparable position, false at the first strictly-smaller;
if all compared positions tie, true iff the challenger's list is longer. -/
def beats : List Nat → List Nat → Bool
  | [], _ => false
  | _ :: _, [] => true
  | c :: cs, b :: bs =>
      if b < c then true
      else if c < b then false
      else beats cs bs

/-- `GameEngine._resolve_tie_by_highest_card`: fold over the candidates,
replacing the best exactly when the challenger beats it (`none` only for an
empty candidate list, where Python would raise `IndexError`). -/
def resolveTieByHighestCard (players : List Player) : Option Player :=
  match players with
  | [] => none
  | p :: ps =>
    some (ps.foldl
      (fun best q => if beats (getSortedRanks q) (getSortedRanks best) then q else best)
      p)

/-- The rider-selection logic of `GameEngine._determine_bus_rider`
(lines 357–365): candidates are the players with the most hand cards; a
unique candidate is the rider, otherwise the tie-break decides. -/
def busRiderSelection (players : List Player) : Option Player :=
  match (players.map (fun p => p.hand.length)).max? with
  | none => none
  | some maxCards =>
    let candidates := players.filter (fun p => p.hand.length = maxCards)
    if candidates.length = 1 then candidates.head?
    else resolveTieByHighestCard candidates

/-- `GameEngine.start_phase_three`: enter the bus phase, reset the cursor,
and deal up to 10 cards from the deck to `bus_cards`. -/
def startPhaseThree (g : Game) : Game :=
  { g with phase := .phaseThreeBus
           bus_cursor := 0
           bus_cards := g.deck.take 10
           deck := g.deck.drop 10
           log := g.log ++ [.busStarted 10] }

/-- Drink value of a flipped bus card (`flip_next_bus_card` lines 436–444):
Jack 1, Queen 2, King 3, Ace 4, all other ranks 0. -/
def busDrinks : Rank → Nat
  | .jack => 1
  | .queen => 2
  | .king => 3
  | .ace => 4
  | _ => 0

/-- Index of the designated bus rider: the first player whose
`is_bus_rider` flag is set (`next(p for p in game.players if p.is_bus_rider)`). -/
def firstRiderIdx (players : List Player) : Option Nat :=
  players.findIdx? (fun p => p.is_bus_rider)

/-- Apply `drinks` to the designated bus rider only (lines 447–450). -/
def applyDrinksToBusRider (players : List Player) (drinks : Nat) : List Player :=
  match firstRiderIdx players with
  | none => players
  | some k => players.modify
      (fun p => { p with drinks_received := p.drinks_received + drinks }) k

/-- `GameEngine.flip_next_bus_card`: on cursor exhaustion set phase
FINISHED and return no card; otherwise reveal the card at the cursor,
advance it, and apply the card's drink value to the bus rider. -/
def flipNextBusCard (g : Game) : Except String (Option Card × Nat × Game) :=
  if g.phase ≠ Phase.phaseThreeBus then .error "Not in bus phase"
  else if g.bus_cards.length ≤ g.bus_cursor then
    .ok (none, 0, { g with phase := .finished, log := g.log ++ [.busCompleted] })
  else
    match g.bus_cards.get? g.bus_cursor with
    | none => .error "unreachable: cursor in range"
    | some card =>
      let drinks := busDrinks card.rank
      let players' :=
        if 0 < drinks then applyDrinksToBusRider g.players drinks else g.players
      .ok (some card, drinks,
        { g with bus_cursor := g.bus_cursor + 1,
                 players := players',
                 log := g.log ++ [.busFlip g.bus_cursor card drinks] })

/-- Iterate `flip_next_bus_card` `n` times, keeping the successive game
states (an error leaves the state as it was). -/
def flipBusN : Nat → Game → Game
  | 0, g => g
  | n + 1, g =>
      match flipNextBusCard g with
      | .ok r => flipBusN n r.2.2
      | .error _ => g

end Party

/-! ## Concrete test fixtures -/

namespace Fix

/-- A mid-game single-bet state in round 2 with winnings banked. -/
def c4Game : Casino.GameState :=
  { current_round := .round2
    cards_drawn := [⟨.ten, .hearts⟩]
    bet_amount := 5
    current_winnings := 10
    status := .active
    deck := [⟨.two, .clubs⟩, ⟨.nine, .spades⟩]
    game_history := [] }

/-- A single-bet state in round 4: three cards drawn (hearts, diamonds,
clubs), next card in the deck a club — its suit already on the board. -/
def c3Game : Casino.GameState :=
  { current_round := .round4
    cards_drawn := [⟨.ten, .hearts⟩, ⟨.king, .diamonds⟩, ⟨.four, .clubs⟩]
    bet_amount := 5
    current_winnings := 60
    status := .active
    deck := [⟨.nine, .clubs⟩, ⟨.two, .spades⟩]
    game_history := [] }

/-- Party-variant game mid phase one, current player holding a 7♥ from R1,
the deck about to deal a 7♦ (an R2 boundary card) and then a 5♣. -/
def c2Game : Party.Game :=
  { seed := 1
    phase := .phaseOneDeal
    players := [⟨0, "Alice", [⟨.seven, .hearts, 0⟩], 0, 0, false⟩,
                ⟨1, "Bob", [], 0, 0, false⟩]
    dealer_index := 0
    deck := [⟨.seven, .diamonds, 1⟩, ⟨.five, .clubs, 2⟩]
    discard := []
    pyramid := Party.Pyramid.default
    log := []
    config := {}
    current_round := some .r2
    current_player_index := 0
    bus_cards := []
    bus_cursor := 0 }

/-- Two tied bus-rider candidates: equal hand sizes, Alice's highest card
an Ace, Bob's a King. -/
def c7Alice : Party.Player :=
  ⟨0, "Alice", [⟨.ace, .hearts, 10⟩, ⟨.three, .clubs, 11⟩], 0, 0, false⟩

/-- The King-high counterpart of `c7Alice`. -/
def c7Bob : Party.Player :=
  ⟨1, "Bob", [⟨.king, .spades, 12⟩, ⟨.three, .diamonds, 13⟩], 0, 0, false⟩

/-- A pyramid-phase game: the flipped slot (0,0) shows a 7♦; player 0's
hand holds a matching 7♥ and a non-matching 5♣. -/
def c8Game : Party.Game :=
  { seed := 1
    phase := .phaseTwoPyramid
    players := [⟨0, "Alice", [⟨.seven, .hearts, 100⟩, ⟨.five, .clubs, 101⟩], 0, 0, false⟩,
                ⟨1, "Bob", [⟨.two, .spades, 102⟩], 0, 0, false⟩]
    dealer_index := 0
    deck := []
    discard := []
    pyramid :=
      { rows := [[⟨true, some ⟨.seven, .diamonds, 200⟩⟩,
                  ⟨false, some ⟨.two, .hearts, 201⟩⟩,
                  ⟨false, some ⟨.three, .hearts, 202⟩⟩,
                  ⟨false, some ⟨.four, .hearts, 203⟩⟩,
                  ⟨false, some ⟨.six, .hearts, 204⟩⟩],
                 [⟨false, some ⟨.eight, .hearts, 205⟩⟩,
                  ⟨false, some ⟨.nine, .hearts, 206⟩⟩,
                  ⟨false, some ⟨.ten, .hearts, 207⟩⟩,
                  ⟨false, some ⟨.jack, .hearts, 208⟩⟩],
                 [⟨false, some ⟨.queen, .hearts, 209⟩⟩,
                  ⟨false, some ⟨.king, .hearts, 210⟩⟩,
                  ⟨false, some ⟨.ace, .diamonds, 211⟩⟩],
                 [⟨false, some ⟨.two, .diamonds, 212⟩⟩,
                  ⟨false, some ⟨.three, .diamonds, 213⟩⟩],
                 [⟨false, some ⟨.four, .diamonds, 214⟩⟩]]
        cursor := (0, 0) }
    log := []
    config := {}
    current_round := none
    current_player_index := 0
    bus_cards := []
    bus_cursor := 0 }

/-- A game about to enter the bus phase: Bob is the designated rider, and
the deck's next ten cards are J♥ 5♣ Q♦ K♠ A♥ 2♣ 3♦ 4♠ 9♥ 10♣. -/
def c9GamePre : Party.Game :=
  { seed := 1
    phase := .phaseTwoPyramid
    players := [⟨0, "Alice", [], 0, 0, false⟩,
                ⟨1, "Bob", [⟨.queen, .clubs, 300⟩], 0, 0, true⟩]
    dealer_index := 0
    deck := [⟨.jack, .hearts, 301⟩, ⟨.five, .clubs, 302⟩, ⟨.queen, .diamonds, 303⟩,
             ⟨.king, .spades, 304⟩, ⟨.ace, .hearts, 305⟩, ⟨.two, .clubs, 306⟩,
             ⟨.three, .diamonds, 307⟩, ⟨.four, .spades, 308⟩, ⟨.nine, .hearts, 309⟩,
             ⟨.ten, .clubs, 310⟩]
    discard := []
    pyramid := Party.Pyramid.default
    log := []
    config := {}
    current_round := none
    current_player_index := 0
    bus_cards := []
    bus_cursor := 0 }

/-- The bus-phase game obtained by `start_phase_three` on `c9GamePre`. -/
def c9Game : Party.Game := Party.startPhaseThree c9GamePre

/-- The state `executeR2` produces from `c2Game` (guess lower, fuel 5):
two boundary reshuffles of the 7♦, then the 5♣ accepted. -/
def c2GameAfter : Party.Game :=
  { c2Game with
      players := [⟨0, "Alice", [⟨.seven, .hearts, 0⟩, ⟨.five, .clubs, 2⟩], 0, 0, false⟩,
                  ⟨1, "Bob", [], 0, 0, false⟩]
      deck := [⟨.seven, .diamonds, 1⟩]
      log := [.cardDealtBoundary "R2" ⟨.seven, .diamonds, 1⟩,
              .cardDealtBoundary "R2" ⟨.seven, .diamonds, 1⟩,
              .guessMade "R2" .lower ⟨.five, .clubs, 2⟩ true] }

/-- The state `commit_match` produces from `c8Game` when player 0 commits
the non-matching 5♣: the 5♣ leaves the hand for the discard pile. -/
def c8GameAfter : Party.Game :=
  { c8Game with
      players := [⟨0, "Alice", [⟨.seven, .hearts, 100⟩], 0, 0, false⟩,
                  ⟨1, "Bob", [⟨.two, .spades, 102⟩], 0, 0, false⟩]
      discard := [⟨.five, .clubs, 101⟩]
      log := [.matchCommitted ⟨.five, .clubs, 101⟩ 0 1] }

end Fix

/-! ## Claims -/

/-- Claim C4: `cash_out` succeeds — returning `current_winnings` and
setting status CASHED_OUT — iff the status is ACTIVE and the current round
is not ROUND1; in every other state it fails with an error, leaving the
state unchanged (the exception is raised before any mutation). -/
theorem c4_cash_out_iff (g : Casino.GameState) :
    (g.status = Casino.GameStatus.active ∧ g.current_round ≠ Casino.Round.round1 →
      Casino.cashOut g =
        .ok (g.current_winnings, { g with status := Casino.GameStatus.cashedOut })) ∧
    (¬ (g.status = Casino.GameStatus.active ∧ g.current_round ≠ Casino.Round.round1) →
      Casino.cashOut g = .error "Cannot cash out at this time") := by
  constructor
  · intro h
    simp [Casino.cashOut, h.1, h.2]
  · intro h
    have hc : g.status ≠ Casino.GameStatus.active ∨ g.current_round = Casino.Round.round1 := by
      tauto
    rw [Casino.cashOut, if_pos hc]

/-- Witness for C4: cashing out `c4Game` (active, round 2) yields its
winnings and the CASHED_OUT status; the same state reset to round 1 is
rejected. -/
theorem c4_cash_out_iff_witness :
    Casino.cashOut Fix.c4Game =
      .ok (10, { Fix.c4Game with status := Casino.GameStatus.cashedOut }) ∧
    Casino.cashOut { Fix.c4Game with current_round := Casino.Round.round1 } =
      .error "Cannot cash out at this time" :=
  ⟨(c4_cash_out_iff Fix.c4Game).1 ⟨rfl, by decide⟩,
   (c4_cash_out_iff _).2 (by decide)⟩

/-- Claim C5: in the single-bet round 2, a "higher" guess is correct iff
the drawn card's value is at least the first card's, and a "lower" guess
iff at most — so equal rank wins for either guess. -/
theorem c5_round2_ties (f c : Casino.Card) :
    (Casino.checkRound2 "higher" c f = true ↔ f.value ≤ c.value) ∧
    (Casino.checkRound2 "lower" c f = true ↔ c.value ≤ f.value) := by
  have h1 : pyLower "higher" = "higher" := by decide
  have h2 : pyLower "lower" = "lower" := by decide
  constructor
  · simp [Casino.checkRound2, h1, ge_iff_le]
  · simp [Casino.checkRound2, h2]

/-- Witness for C5: with equal seven-valued first and drawn cards, both
guesses are scored correct. -/
theorem c5_round2_ties_witness :
    Casino.checkRound2 "higher" ⟨.seven, .hearts⟩ ⟨.seven, .clubs⟩ = true ∧
    Casino.checkRound2 "lower" ⟨.seven, .hearts⟩ ⟨.seven, .clubs⟩ = true :=
  ⟨(c5_round2_ties ⟨.seven, .clubs⟩ ⟨.seven, .hearts⟩).1.mpr (by decide),
   (c5_round2_ties ⟨.seven, .clubs⟩ ⟨.seven, .hearts⟩).2.mpr (by decide)⟩

/-- Claim C6: the round-2 strategy breakpoints: value 2–5 recommends
"pick_higher" with probability (14 − v)/12 and expected value
probability × 2; value 6–10 recommends cash-out with probability 1;
value 11–14 recommends "pick_lower" with probability (v − 2)/12 and
expected value probability × 2. -/
theorem c6_strategy_round2 (c : Casino.Card) :
    (2 ≤ c.value ∧ c.value ≤ 5 →
      (Casino.strategyRound2 c).action = "pick_higher" ∧
      (Casino.strategyRound2 c).probability = (14 - (c.value : ℚ)) / 12 ∧
      (Casino.strategyRound2 c).expected_value =
        (Casino.strategyRound2 c).probability * 2) ∧
    (6 ≤ c.value ∧ c.value ≤ 10 →
      (Casino.strategyRound2 c).action = "cash_out" ∧
      (Casino.strategyRound2 c).probability = 1) ∧
    (11 ≤ c.value ∧ c.value ≤ 14 →
      (Casino.strategyRound2 c).action = "pick_lower" ∧
      (Casino.strategyRound2 c).probability = ((c.value : ℚ) - 2) / 12 ∧
      (Casino.strategyRound2 c).expected_value =
        (Casino.strategyRound2 c).probability * 2) := by
  obtain ⟨r, s⟩ := c
  cases r <;> cases s <;>
    refine ⟨fun h => ?_, fun h => ?_, fun h => ?_⟩ <;>
    first
      | (exact absurd h (by decide))
      | (refine ⟨rfl, ?_, rfl⟩ <;>
          norm_num [Casino.strategyRound2, Casino.Card.value, Rank.value])
      | (exact ⟨rfl, by norm_num [Casino.strategyRound2, Casino.Card.value, Rank.value]⟩)

/-- Claim C1 (amended): for every truthy (nonzero) seed s, a run that
constructs the casino engine with seed s, creates a game, and submits a
fixed guess sequence is independent of the ambient global generator state,
so repeated runs produce identical drawn cards and final state.  (For seed
0 the constructor's `if seed:` skips seeding; see the counterexample.) -/
theorem c1_determinism_nonzero_seed (s g1 g2 : Nat) (bet : ℚ)
    (guesses : List String) (h : s ≠ 0) :
    Casino.casinoRun (some s) g1 bet guesses =
      Casino.casinoRun (some s) g2 bet guesses := by
  have h1 : Casino.initRngState (some s) g1 = s := by
    simp [Casino.initRngState, h]
  have h2 : Casino.initRngState (some s) g2 = s := by
    simp [Casino.initRngState, h]
  unfold Casino.casinoRun
  rw [h1, h2]

/-- Witness for C1: with seed 42, two runs from unrelated ambient global
states coincide. -/
theorem c1_determinism_nonzero_seed_witness :
    Casino.casinoRun (some 42) 7 1 ["red"] =
      Casino.casinoRun (some 42) 123 1 ["red"] :=
  c1_determinism_nonzero_seed 42 7 123 1 ["red"] (by decide)

/-- Counterexample to C1 as stated: with seed 0 the engine constructor
does not seed the generator (`if seed:` is false), so two runs whose
ambient global generator states differ draw different cards. -/
theorem c1_seed_zero_not_deterministic :
    (Casino.casinoRun (some 0) 0 1 ["red"]).cards_drawn ≠
      (Casino.casinoRun (some 0) 1 1 ["red"]).cards_drawn := by
  decide

/-- Claim C3: in round 4 with at least three cards already drawn and a
nonempty deck, the guess is correct iff it names the drawn card's suit and
that suit is absent from the first three drawn cards; naming a suit
already on the board is never correct, even if the drawn card has it. -/
theorem c3_round4_used_suit (g : Casino.GameState) (guess : String)
    (c : Casino.Card) (rest : List Casino.Card)
    (hact : g.status = Casino.GameStatus.active)
    (hr : g.current_round = Casino.Round.round4)
    (hlen : 3 ≤ g.cards_drawn.length)
    (hdeck : g.deck = c :: rest) :
    ((Casino.makeGuess g guess).map (fun r => r.2.1) = .ok c) ∧
    ((Casino.makeGuess g guess).map (fun r => r.1) =
      .ok (decide (pyLower guess = c.suit.lowerName ∧
        c.suit.lowerName ∉ (g.cards_drawn.take 3).map (fun x => x.suit.lowerName)))) ∧
    (c.suit.lowerName ∈ (g.cards_drawn.take 3).map (fun x => x.suit.lowerName) →
      (Casino.makeGuess g guess).map (fun r => r.1) = .ok false) := by
  have hb : Casino.checkGuess
      { g with deck := rest, cards_drawn := g.cards_drawn ++ [c] } guess c =
      decide (pyLower guess = c.suit.lowerName ∧
        c.suit.lowerName ∉ (g.cards_drawn.take 3).map (fun x => x.suit.lowerName)) := by
    simp only [Casino.checkGuess, hr, Casino.checkRound4,
      List.take_append_of_le_length hlen]
    simp [Bool.and_comm]
  have hmk : ∃ w g', Casino.makeGuess g guess =
      .ok (Casino.checkGuess
        { g with deck := rest, cards_drawn := g.cards_drawn ++ [c] } guess c,
        c, w, g') := by
    simp only [Casino.makeGuess, hact, hdeck, ne_eq, not_true_eq_false,
      if_false]
    exact ⟨_, _, rfl⟩
  obtain ⟨w, g', hmk⟩ := hmk
  rw [hb] at hmk
  refine ⟨by rw [hmk]; rfl, by rw [hmk]; rfl, fun hmem => ?_⟩
  rw [hmk]
  have hnot : ¬ (pyLower guess = c.suit.lowerName ∧
      c.suit.lowerName ∉ (g.cards_drawn.take 3).map (fun x => x.suit.lowerName)) :=
    fun hconj => hconj.2 hmem
  simp only [Except.map]
  rw [decide_eq_false hnot]

/-- Witness for C3: on `c3Game` (clubs already on the board) guessing
"clubs" draws the 9♣ yet is scored incorrect. -/
theorem c3_round4_used_suit_witness :
    ((Casino.makeGuess Fix.c3Game "clubs").map (fun r => r.2.1) =
      .ok ⟨.nine, .clubs⟩) ∧
    ((Casino.makeGuess Fix.c3Game "clubs").map (fun r => r.1) = .ok false) :=
  have h := c3_round4_used_suit Fix.c3Game "clubs" ⟨.nine, .clubs⟩
    [⟨.two, .spades⟩] rfl rfl (by decide) rfl
  ⟨h.1, h.2.2 (by decide)⟩

/-- Soundness of the R2 dealing loop: a successful draw has a rank
different from the first card's, the log only grows, and if the very first
card dealt was a boundary card its reshuffle event is in the final log. -/
theorem r2DrawLoop_sound (fv : Nat) :
    ∀ (fuel : Nat) (deck : List Party.Card) (st : Nat) (log : List Party.LogEv)
      (c : Party.Card) (deck' : List Party.Card) (st' : Nat) (log' : List Party.LogEv),
      Party.r2DrawLoop fv fuel deck st log = some (c, deck', st', log') →
      c.rankValue ≠ fv ∧ (∀ e ∈ log, e ∈ log') ∧
      (∀ d, deck.head? = some d → d.rankValue = fv →
        Party.LogEv.cardDealtBoundary "R2" d ∈ log') := by
  intro fuel
  induction fuel with
  | zero =>
    intro deck st log c deck' st' log' h
    simp [Party.r2DrawLoop] at h
  | succ n ih =>
    intro deck st log c deck' st' log' h
    cases deck with
    | nil => simp [Party.r2DrawLoop] at h
    | cons d0 rest =>
      rw [Party.r2DrawLoop] at h
      by_cases hb : d0.rankValue = fv
      · rw [if_pos hb] at h
        obtain ⟨hne, hmono, _⟩ := ih _ _ _ _ _ _ _ h
        refine ⟨hne, fun e he => hmono e (List.mem_append_left _ he), ?_⟩
        intro d hd hdv
        rw [List.head?_cons, Option.some.injEq] at hd
        subst hd
        exact hmono _ (List.mem_append_right _ (by simp))
      · rw [if_neg hb] at h
        simp only [Option.some.injEq, Prod.mk.injEq] at h
        obtain ⟨rfl, -, -, rfl⟩ := h
        refine ⟨hb, fun e he => he, ?_⟩
        intro d hd hdv
        rw [List.head?_cons, Option.some.injEq] at hd
        subst hd
        exact absurd hdv hb

/-- Claim C2: whenever `_execute_r2` returns, the accepted second card's
rank differs from the first hand card's rank, that card (and only it) was
appended to the hand, and if the first card dealt was rank-equal a
boundary-reshuffle event was logged. -/
theorem c2_r2_boundary_reshuffle
    (fuel : Nat) (g : Party.Game) (st : Nat) (i : Nat) (guess : Party.Guess)
    (p : Party.Player) (firstCard : Party.Card)
    (hp : g.players.get? i = some p)
    (hf : p.hand.head? = some firstCard)
    (c : Party.Card) (b : Bool) (pen : Nat) (g' : Party.Game) (st' : Nat)
    (hrun : Party.executeR2 fuel g st i guess = some (c, b, pen, g', st')) :
    c.rankValue ≠ firstCard.rankValue ∧
    ((g'.players.get? i).map Party.Player.hand = some (p.hand ++ [c])) ∧
    (∀ d, g.deck.head? = some d → d.rankValue = firstCard.rankValue →
      Party.LogEv.cardDealtBoundary "R2" d ∈ g'.log) := by
  have hi : i < g.players.length := (List.get?_eq_some.mp hp).1
  unfold Party.executeR2 at hrun
  rw [hp] at hrun
  simp only at hrun
  rw [hf] at hrun
  simp only at hrun
  rcases hl : Party.r2DrawLoop firstCard.rankValue fuel g.deck st g.log with
    _ | ⟨second, deck2, st2, log2⟩
  · rw [hl] at hrun; simp at hrun
  · rw [hl] at hrun
    simp only at hrun
    obtain ⟨hne, -, hhead⟩ := r2DrawLoop_sound _ _ _ _ _ _ _ _ _ hl
    cases guess
    case red => simp at hrun
    case black => simp at hrun
    case inside => simp at hrun
    case outside => simp at hrun
    case higher =>
      simp only [Option.some.injEq, Prod.mk.injEq] at hrun
      obtain ⟨rfl, -, -, rfl, -⟩ := hrun
      refine ⟨hne, ?_, ?_⟩
      · simp only [List.get?_eq_getElem?, List.getElem?_set]
        simp [hi]
      · intro d hd hdv
        exact List.mem_append_left _ (List.mem_append_left _ (hhead d hd hdv))
    case lower =>
      simp only [Option.some.injEq, Prod.mk.injEq] at hrun
      obtain ⟨rfl, -, -, rfl, -⟩ := hrun
      refine ⟨hne, ?_, ?_⟩
      · simp only [List.get?_eq_getElem?, List.getElem?_set]
        simp [hi]
      · intro d hd hdv
        exact List.mem_append_left _ (List.mem_append_left _ (hhead d hd hdv))

/-- Witness for C2: running `_execute_r2` on `c2Game` (hand 7♥, deck
7♦ 5♣, guess lower, fuel 5) reshuffles the boundary 7♦ and accepts the
5♣: its rank differs from the 7♥, the hand becomes 7♥ 5♣, and the
boundary event is logged. -/
theorem c2_r2_boundary_reshuffle_witness :
    (Party.Card.mk .five .clubs 2).rankValue ≠
      (Party.Card.mk .seven .hearts 0).rankValue ∧
    ((Fix.c2GameAfter.players.get? 0).map Party.Player.hand =
      some ([⟨.seven, .hearts, 0⟩] ++ [⟨.five, .clubs, 2⟩])) ∧
    (∀ d, Fix.c2Game.deck.head? = some d →
      d.rankValue = (Party.Card.mk .seven .hearts 0).rankValue →
      Party.LogEv.cardDealtBoundary "R2" d ∈ Fix.c2GameAfter.log) :=
  c2_r2_boundary_reshuffle 5 Fix.c2Game 0 0 .lower
    ⟨0, "Alice", [⟨.seven, .hearts, 0⟩], 0, 0, false⟩ ⟨.seven, .hearts, 0⟩
    rfl rfl ⟨.five, .clubs, 2⟩ true 0 Fix.c2GameAfter 3554416254 (by decide)

/-- Asymmetry of the tie-break comparison: if one sorted rank list beats
another, the reverse comparison loses. -/
theorem beats_asymm : ∀ a b : List Nat,
    Party.beats a b = true → Party.beats b a = false := by
  intro a
  induction a with
  | nil => intro b h; simp [Party.beats] at h
  | cons x xs ih =>
    intro b h
    cases b with
    | nil => simp [Party.beats]
    | cons y ys =>
      rw [Party.beats] at h ⊢
      by_cases h1 : y < x
      · rw [if_neg (by omega : ¬ x < y), if_pos h1]
      · rw [if_neg h1] at h
        by_cases h2 : x < y
        · rw [if_pos h2] at h
          exact absurd h (by decide)
        · rw [if_neg h2] at h
          rw [if_neg h2, if_neg h1]
          exact ih ys h

/-- Claim C7: among two tied candidates (equal hand sizes), the one whose
descending sorted rank list beats the other's — first strictly-higher rank
at a comparable position — is selected as bus rider, whichever order the
players are listed in. -/
theorem c7_tie_break (p q : Party.Player)
    (hlen : p.hand.length = q.hand.length)
    (hbeats : Party.beats (Party.getSortedRanks p) (Party.getSortedRanks q) = true) :
    Party.busRiderSelection [p, q] = some p ∧
    Party.busRiderSelection [q, p] = some p := by
  have hq : Party.beats (Party.getSortedRanks q) (Party.getSortedRanks p) = false :=
    beats_asymm _ _ hbeats
  constructor
  · simp only [Party.busRiderSelection, Party.resolveTieByHighestCard, List.map,
      List.max?, List.foldl, hlen, Nat.max_self, List.filter, decide_True,
      List.length, hq, hbeats]
    simp [Party.resolveTieByHighestCard, hq]
  · simp only [Party.busRiderSelection, Party.resolveTieByHighestCard, List.map,
      List.max?, List.foldl, hlen, Nat.max_self, List.filter, decide_True,
      List.length, hq, hbeats]
    simp [Party.resolveTieByHighestCard, hbeats]

/-- Witness for C7: equal-length hands, Alice's topped by an Ace and
Bob's by a King — Alice is selected from either ordering. -/
theorem c7_tie_break_witness :
    Party.busRiderSelection [Fix.c7Alice, Fix.c7Bob] = some Fix.c7Alice ∧
    Party.busRiderSelection [Fix.c7Bob, Fix.c7Alice] = some Fix.c7Alice :=
  c7_tie_break Fix.c7Alice Fix.c7Bob (by decide) (by decide)

/-- Claim C8 (code bug): `commit_match` accepts a committed card whose
rank does not match the flipped pyramid card, provided some other hand
card matches: on `c8Game` (flipped 7♦, hand 7♥ 5♣) committing the 5♣
succeeds, removes the 5♣ to the discard pile, and returns the row-0 drink
value, although the claim (and spec) require this call to fail. -/
theorem c8_commit_match_nonmatching_accepted :
    (Party.Card.mk .five .clubs 101).rank ≠ (Party.Card.mk .seven .diamonds 200).rank ∧
    Party.getCurrentPyramidCard Fix.c8Game = some ⟨.seven, .diamonds, 200⟩ ∧
    Party.commitMatch Fix.c8Game 0 ⟨.five, .clubs, 101⟩ = .ok (1, Fix.c8GameAfter) := by
  exact ⟨by decide, by decide, by rfl⟩

/-- Drinks received after `applyDrinksToBusRider`: the first flagged rider
gains exactly `d`, every other player is unchanged. -/
theorem applyDrinks_drinks_received (players : List Party.Player) (d k : Nat) :
    ((Party.applyDrinksToBusRider players d).get? k).map Party.Player.drinks_received =
      (players.get? k).map (fun pl => pl.drinks_received +
        (if Party.firstRiderIdx players = some k then d else 0)) := by
  unfold Party.applyDrinksToBusRider
  cases hr : Party.firstRiderIdx players with
  | none =>
    simp only [hr]
    cases players.get? k <;> simp
  | some j =>
    simp only [hr, List.get?_eq_getElem?, List.getElem?_modify]
    cases hpk : players[k]? with
    | none => simp
    | some pl =>
      by_cases hjk : j = k <;> simp [hjk]

/-- Claim C9 (amended): in the bus phase, a flip call with the cursor
exhausted returns no card and sets phase FINISHED (so the transition
happens on the call after the tenth flip, not upon the tenth flip itself);
an in-range flip returns the cursor card, stays in the bus phase, advances
the cursor, and adds the card's drink value (Jack 1, Queen 2, King 3,
Ace 4, others 0) to the designated bus rider only. -/
theorem c9_bus_flip (g : Party.Game)
    (hphase : g.phase = Party.Phase.phaseThreeBus) :
    (g.bus_cards.length ≤ g.bus_cursor →
      Party.flipNextBusCard g = .ok (none, 0,
        { g with phase := .finished, log := g.log ++ [.busCompleted] })) ∧
    (∀ c, g.bus_cards.get? g.bus_cursor = some c →
      ∃ g', Party.flipNextBusCard g = .ok (some c, Party.busDrinks c.rank, g') ∧
        g'.phase = Party.Phase.phaseThreeBus ∧
        g'.bus_cursor = g.bus_cursor + 1 ∧
        g'.bus_cards = g.bus_cards ∧
        (∀ k, (g'.players.get? k).map Party.Player.drinks_received =
          (g.players.get? k).map (fun pl => pl.drinks_received +
            (if Party.firstRiderIdx g.players = some k then Party.busDrinks c.rank
             else 0)))) ∧
    (Party.busDrinks .jack = 1 ∧ Party.busDrinks .queen = 2 ∧
      Party.busDrinks .king = 3 ∧ Party.busDrinks .ace = 4 ∧
      ∀ r : Rank, r ≠ .jack → r ≠ .queen → r ≠ .king → r ≠ .ace →
        Party.busDrinks r = 0) := by
  refine ⟨fun hle => ?_, fun c hc => ?_,
    rfl, rfl, rfl, rfl, ?_⟩
  · unfold Party.flipNextBusCard
    rw [if_neg (by simp [hphase]), if_pos hle]
  · have hlt : g.bus_cursor < g.bus_cards.length := (List.get?_eq_some.mp hc).1
    unfold Party.flipNextBusCard
    rw [if_neg (by simp [hphase]), if_neg (by omega), hc]
    simp only
    refine ⟨_, rfl, hphase, rfl, rfl, ?_⟩
    intro k
    by_cases hd : 0 < Party.busDrinks c.rank
    · rw [if_pos hd]
      exact applyDrinks_drinks_received g.players _ k
    · rw [if_neg hd]
      have hz : Party.busDrinks c.rank = 0 := by omega
      rw [hz]
      cases g.players.get? k <;> simp
  · intro r h1 h2 h3 h4
    cases r <;> first | rfl | (exact absurd rfl (by assumption))

/-- Witness for C9: on `c9Game` after its ten flips the phase is still the
bus phase, and the eleventh call returns no card while setting FINISHED. -/
theorem c9_bus_flip_witness :
    Party.flipNextBusCard (Party.flipBusN 10 Fix.c9Game) =
      .ok (none, 0, { Party.flipBusN 10 Fix.c9Game with
        phase := .finished,
        log := (Party.flipBusN 10 Fix.c9Game).log ++ [.busCompleted] }) :=
  (c9_bus_flip (Party.flipBusN 10 Fix.c9Game) (by decide)).1 (by decide)

/-- Counterexample to C9 as stated: `c9Game` starts the bus phase with ten
dealt bus cards; after ten `flip_next_bus_card` calls all ten cards have
been flipped (cursor 10) yet the phase is not FINISHED. -/
theorem c9_ten_flips_not_finished :
    Fix.c9Game.bus_cards.length = 10 ∧
    (Party.flipBusN 10 Fix.c9Game).bus_cursor = 10 ∧
    (Party.flipBusN 10 Fix.c9Game).phase ≠ Party.Phase.finished := by
  exact ⟨by decide, by decide, by decide⟩

/-- Claim C10: `create_game` succeeds exactly for 2–10 player names; on
success the created game has one player per name (in order), is in phase
one, round R1. -/
theorem c10_create_game_bounds (names : List String) (seed st : Nat) :
    ((Party.createGame names seed st).isOk = true ↔
      2 ≤ names.length ∧ names.length ≤ 10) ∧
    (∀ g st', Party.createGame names seed st = .ok (g, st') →
      g.players.map Party.Player.name = names ∧
      g.players.length = names.length ∧
      g.phase = Party.Phase.phaseOneDeal ∧
      g.current_round = some Party.RoundId.r1) := by
  constructor
  · unfold Party.createGame
    by_cases h : names.length < 2 ∨ names.length > 10
    · rw [if_pos h]
      simp only [Except.isOk, Except.toBool]
      constructor
      · intro hx; exact absurd hx (by decide)
      · intro hx; omega
    · rw [if_neg h]
      simp only [Except.isOk, Except.toBool]
      constructor
      · intro _; omega
      · intro _; trivial
  · intro g st' hok
    unfold Party.createGame at hok
    by_cases h : names.length < 2 ∨ names.length > 10
    · rw [if_pos h] at hok
      exact absurd hok (by simp)
    · rw [if_neg h] at hok
      simp only [Except.ok.injEq, Prod.mk.injEq] at hok
      obtain ⟨hg, -⟩ := hok
      subst hg
      refine ⟨?_, ?_, rfl, rfl⟩
      · rw [List.map_map]
        exact List.enum_map_snd names
      · simp [List.enum_length]

/-- Witness for C10: two names are accepted, a single name is rejected. -/
theorem c10_create_game_bounds_witness :
    (Party.createGame ["Alice", "Bob"] 1 0).isOk = true ∧
    (Party.createGame ["Alice"] 1 0).isOk ≠ true :=
  ⟨(c10_create_game_bounds ["Alice", "Bob"] 1 0).1.mpr (by decide),
   fun h => absurd ((c10_create_game_bounds ["Alice"] 1 0).1.mp h) (by decide)⟩

/-- Witness for C6: a three of hearts recommends "pick_higher" with
probability 11/12 and expected value 11/6. -/
theorem c6_strategy_round2_witness :
    (Casino.strategyRound2 ⟨.three, .hearts⟩).action = "pick_higher" ∧
    (Casino.strategyRound2 ⟨.three, .hearts⟩).probability =
      (14 - ((Casino.Card.mk .three .hearts).value : ℚ)) / 12 ∧
    (Casino.strategyRound2 ⟨.three, .hearts⟩).expected_value =
      (Casino.strategyRound2 ⟨.three, .hearts⟩).probability * 2 :=
  (c6_strategy_round2 ⟨.three, .hearts⟩).1 ⟨by decide, by decide⟩
